import Mathlib

/-!
Shallow embedding of the auction program's `place_bid` entry point
(`auction/program/src/processor/place_bid.rs`) together with the parts of the
auction data model it manipulates.

Account keys (`Pubkey`) are modelled as natural numbers.  The results of the
external `find_program_address` derivations are supplied as inputs
(`potDerived`, `metaDerived`), since the derivation itself lives in the
runtime, not in this program.  Fallible external calls
(`create_or_allocate_account_raw`, borsh (de)serialization) are modelled with
explicit outcome flags; the system `transfer` primitive fails exactly when the
source balance is below the requested amount.  The rent funding performed
inside `create_or_allocate_account_raw` is elided: none of the properties
below concern rent, only the bid-amount escrow transfer.

Machine integers: `u64` values are `Nat` with wrapping subtraction made
explicit (`sub64`, modulo `2 ^ 64`, the release-build semantics of the `-`
on line 91 of the source); `i64` timestamps are `Int` with wrapping
subtraction `wrapI64` where the source subtracts.
-/

/-- Wrapping `u64` subtraction: the value of `a - b` on `u64` operands in a
release build (no overflow checks), as in `bidder_act.lamports() - args.amount`. -/
def sub64 (a b : Nat) : Nat :=
  (a + (2 ^ 64 - b % 2 ^ 64)) % 2 ^ 64

/-- Wrapping `i64` subtraction result: reduce an `Int` into `[-2^63, 2^63)`. -/
def wrapI64 (x : Int) : Int :=
  (x + 2 ^ 63) % 2 ^ 64 - 2 ^ 63

/-- Modelled from the spec: the auction program's error enumeration
(`crate::errors::AuctionError` is not among the provided sources).  The spec's
taxonomy distinguishes `AuctionClosed` (timing rule violated) from the balance
error; the source of `place_bid` itself uses `InvalidBidAccount` and
`BalanceTooLow`. -/
inductive AuctionError
  | InvalidBidAccount
  | BalanceTooLow
  | AuctionClosed
  | BidTooSmall
  deriving DecidableEq

/-- Program-level result codes for `place_bid`: either an `AuctionError` or a
failure propagated from an external call (account creation, transfer,
borsh (de)serialization). -/
inductive ProgError
  | auction (e : AuctionError)
  | createAccountFailed
  | transferFailed
  | deserializeFailed
  | serializeFailed
  deriving DecidableEq

/-- Modelled from the spec: a single bid, `Bid(escrow_address, amount)`
(the `Bid` tuple struct of `crate::processor` is not among the provided
sources; `place_bid.rs` constructs `Bid(pot_key, args.amount)`). -/
structure Bid where
  key : Nat
  amount : Nat
  deriving DecidableEq

/-- Modelled from the spec: the bounded, rank-ordered bid ledger
(`BidState` of `crate::processor` is not among the provided sources).
`max` is the configured capacity `N`. -/
structure BidState where
  max : Nat
  bids : List Bid
  deriving DecidableEq

/-- Insert a bid into a list kept sorted by amount descending; an incoming bid
goes behind existing entries of equal amount (earliest-first tie-break). -/
def insertRanked (b : Bid) : List Bid → List Bid
  | [] => [b]
  | x :: xs => if x.amount < b.amount then b :: x :: xs else x :: insertRanked b xs

/-- Modelled from the spec: `BidState::place_bid` (§4.1).  A bid from a bidder
with an active entry must strictly exceed that entry or is rejected as
`BidTooSmall`; otherwise the bidder's old entry is removed, the new bid is
inserted in rank order, and the list is truncated to capacity (evicting the
lowest-ranked entry on overflow). -/
def BidState.place_bid (s : BidState) (new : Bid) : Except ProgError BidState :=
  match s.bids.find? (fun b => b.key == new.key) with
  | some old =>
    if new.amount ≤ old.amount then
      Except.error (ProgError.auction AuctionError.BidTooSmall)
    else
      Except.ok { s with bids := (insertRanked new (s.bids.filter (fun b => b.key != new.key))).take s.max }
  | none =>
    Except.ok { s with bids := (insertRanked new s.bids).take s.max }

/-- Modelled from the spec: the persisted auction record (`AuctionData` of
`crate::processor` is not among the provided sources).  Only the fields read
or written by `place_bid.rs` matter here, plus `start_time` and `resource`
for completeness. -/
structure AuctionData where
  resource : Nat
  start_time : Int
  end_time : Option Int
  gap_time : Option Int
  last_bid : Option Int
  bid_state : BidState
  deriving DecidableEq

/-- Modelled from the spec: per-(auction, bidder) metadata record; only its
size is mentioned by `place_bid.rs` (`mem::size_of::<BidderMetadata>()`), and
its contents are never written by `place_bid`. -/
structure BidderMetadata where
  last_bid_timestamp : Int
  deriving DecidableEq

/-- Arguments of the PlaceBid instruction (source struct `PlaceBidArgs`). -/
structure PlaceBidArgs where
  amount : Nat
  resource : Nat
  deriving DecidableEq

/-- Per-call inputs of `place_bid`: the supplied account keys, the results of
the two external `find_program_address` derivations (pot path and metadata
path), the clock sysvar's `unix_timestamp`, and the instruction arguments. -/
structure BidInput where
  bidderKey : Nat
  auctionKey : Nat
  bidderPotKey : Nat
  bidderMetaKey : Nat
  potDerived : Nat
  metaDerived : Nat
  clockTimestamp : Int
  args : PlaceBidArgs
  deriving DecidableEq

/-- Outcomes of the external fallible calls made by `place_bid`: the two
`create_or_allocate_account_raw` invocations and the final borsh
serialization into the auction account's buffer. -/
structure Env where
  createPotFails : Bool
  createMetaFails : Bool
  serializeFails : Bool
  deriving DecidableEq

/-- The on-chain state touched by one `place_bid` call: the bidder's lamport
balance, the pot (escrow) balance, the stored auction record
(`auctionReadable = false` models a buffer `try_from_slice_unchecked` cannot
parse, e.g. after a partial write), and write-tracking flags for the pot and
bidder-metadata accounts. -/
structure ChainState where
  bidderLamports : Nat
  potLamports : Nat
  auction : AuctionData
  auctionReadable : Bool
  potAccountTouched : Bool
  metaAccountTouched : Bool
  deriving DecidableEq

/-- State immediately after the escrow transfer has succeeded: the pot account
has been created/written and `amount` lamports moved from bidder to pot. -/
def afterTransfer (inp : BidInput) (s : ChainState) : ChainState :=
  { s with
    potAccountTouched := true
    bidderLamports := s.bidderLamports - inp.args.amount
    potLamports := s.potLamports + inp.args.amount }

/-- The gap-time rejection test exactly as written on line 151 of the source:
`clock.unix_timestamp - gap > 10 * 60` (note: it subtracts the configured
`gap_time` itself and compares against a hard-coded 600; `last_bid` is not
read). -/
def gapViolated : Option Int → Int → Bool
  | none, _ => false
  | some gap, now => decide (wrapI64 (now - gap) > 10 * 60)

/-- The end-time rejection test of line 158: `clock.unix_timestamp > end`. -/
def endViolated : Option Int → Int → Bool
  | none, _ => false
  | some endT, now => decide (now > endT)

/-- Final stage of `place_bid` (place_bid.rs, lines 163–167), reached after
every check has passed and the escrow transfer is done: set
`last_bid = clock.unix_timestamp`, run the ledger insertion
(`bid_state.place_bid`, propagating its error), and serialize the updated
record back into the auction account.  A serialization failure leaves the
account partially written, modelled as an unreadable record holding the
updated value. -/
def commitBid (inp : BidInput) (env : Env) (s : ChainState) :
    Option ProgError × ChainState :=
  match BidState.place_bid s.auction.bid_state (Bid.mk inp.potDerived inp.args.amount) with
  | Except.error e => (some e, afterTransfer inp s)
  | Except.ok bs =>
    if env.serializeFails then
      (some ProgError.serializeFailed,
        { afterTransfer inp s with
          auction := { s.auction with last_bid := some inp.clockTimestamp, bid_state := bs }
          auctionReadable := false })
    else
      (none,
        { afterTransfer inp s with
          auction := { s.auction with last_bid := some inp.clockTimestamp, bid_state := bs } })

/-- Transcription of `place_bid` (place_bid.rs, lines 44–168), in source
order: derive-and-check pot key, derive-and-check metadata key, balance check
(`lamports - amount <= 0`, wrapping `u64` subtraction, so `= 0`), pot account
creation, escrow transfer, second account creation (which the source again
targets at `bidder_pot_act` with the pot seeds), auction deserialization,
gap-time check, end-time check, then `commitBid` (the `last_bid` update,
ledger insertion and serialization).  Returns the error (if any) together
with the state at the point of return. -/
def place_bid (inp : BidInput) (env : Env) (s : ChainState) :
    Option ProgError × ChainState :=
  if inp.potDerived ≠ inp.bidderPotKey then
    (some (ProgError.auction AuctionError.InvalidBidAccount), s)
  else if inp.metaDerived ≠ inp.bidderMetaKey then
    (some (ProgError.auction AuctionError.InvalidBidAccount), s)
  else if sub64 s.bidderLamports inp.args.amount = 0 then
    (some (ProgError.auction AuctionError.BalanceTooLow), s)
  else if env.createPotFails then
    (some ProgError.createAccountFailed, s)
  else if s.bidderLamports < inp.args.amount then
    (some ProgError.transferFailed, { s with potAccountTouched := true })
  else if env.createMetaFails then
    (some ProgError.createAccountFailed, afterTransfer inp s)
  else if s.auctionReadable = false then
    (some ProgError.deserializeFailed, afterTransfer inp s)
  else if gapViolated s.auction.gap_time inp.clockTimestamp then
    (some (ProgError.auction AuctionError.BalanceTooLow), afterTransfer inp s)
  else if endViolated s.auction.end_time inp.clockTimestamp then
    (some (ProgError.auction AuctionError.BalanceTooLow), afterTransfer inp s)
  else
    commitBid inp env s

/-- An environment in which every external call succeeds. -/
def okEnv : Env :=
  { createPotFails := false, createMetaFails := false, serializeFails := false }

/-- A baseline auction record: capacity 3, empty ledger, no deadlines. -/
def baseAuction : AuctionData :=
  { resource := 7, start_time := 0, end_time := none, gap_time := none,
    last_bid := none, bid_state := { max := 3, bids := [] } }

/-- A baseline chain state: 1000 lamports, readable empty auction. -/
def baseState : ChainState :=
  { bidderLamports := 1000, potLamports := 0, auction := baseAuction,
    auctionReadable := true, potAccountTouched := false, metaAccountTouched := false }

/-- A baseline, well-formed call: matching derived keys, bid of 50. -/
def okInput : BidInput :=
  { bidderKey := 1, auctionKey := 2, bidderPotKey := 11, bidderMetaKey := 12,
    potDerived := 11, metaDerived := 12, clockTimestamp := 200,
    args := { amount := 50, resource := 7 } }

/-- An auction with `gap_time = 600` whose last accepted bid was at `t = 0`. -/
def gapState : ChainState :=
  { baseState with auction := { baseAuction with gap_time := some 600, last_bid := some 0 } }

/-- An auction whose configured `end_time` (100) is already in the past at the
baseline call time 200. -/
def endedState : ChainState :=
  { baseState with auction := { baseAuction with end_time := some 100 } }

/-- A call whose supplied pot account does not match the derived pot address. -/
def badPotInput : BidInput :=
  { okInput with bidderPotKey := 99 }

/-- A call whose supplied metadata account does not match the derived
metadata address. -/
def badMetaInput : BidInput :=
  { okInput with bidderMetaKey := 98 }

/-- A call bidding exactly the bidder's full balance (1000 lamports). -/
def equalBalanceInput : BidInput :=
  { okInput with args := { amount := 1000, resource := 7 } }

/-- A call bidding more (1500) than the bidder's balance (1000). -/
def overdrawInput : BidInput :=
  { okInput with args := { amount := 1500, resource := 7 } }

/-- The state produced by the baseline successful call. -/
def okOutput : ChainState :=
  (place_bid okInput okEnv baseState).2

/-- A state whose auction account cannot be deserialized. -/
def unreadableState : ChainState :=
  { baseState with auctionReadable := false }

/-- The state produced by the baseline call against the unreadable auction. -/
def unreadableOutput : ChainState :=
  (place_bid okInput okEnv unreadableState).2

/-- Claim C1: with `gap_time = 600` and `last_bid = 0`, the source's gap check
(`clock.unix_timestamp - gap > 10 * 60`, line 151) accepts a bid at `t = 601`
and sets `last_bid = 601`, where the claim requires rejection; the check never
reads `last_bid`.  (A bid at `t = 599` is accepted and sets `last_bid = 599`,
as the claim also says.) -/
theorem place_bid_gap_check_ignores_last_bid :
    (place_bid { okInput with clockTimestamp := 601 } okEnv gapState).1 = none ∧
    (place_bid { okInput with clockTimestamp := 601 } okEnv gapState).2.auction.last_bid = some 601 ∧
    (place_bid { okInput with clockTimestamp := 599 } okEnv gapState).1 = none ∧
    (place_bid { okInput with clockTimestamp := 599 } okEnv gapState).2.auction.last_bid = some 599 := by
  decide

/-- Claim C5: the balance check `bidder_act.lamports() - args.amount <= 0`
(line 91) rejects a bid whose amount equals the bidder's balance (1000 = 1000)
with `BalanceTooLow`, although the claim says equality passes; and for an
amount (1500) above the balance (1000) the wrapping `u64` subtraction makes
the check pass, so the call proceeds and only fails later at the system
transfer — not with the balance error. -/
theorem place_bid_balance_check_bug :
    place_bid equalBalanceInput okEnv baseState =
      (some (ProgError.auction AuctionError.BalanceTooLow), baseState) ∧
    (place_bid overdrawInput okEnv baseState).1 = some ProgError.transferFailed := by
  decide

/-- Claim C6: both timing rejections — end-time passed (`end_time = 100`,
`now = 200`) and gap violated per the source's check (`gap_time = 600`,
`now = 1300`) — return `AuctionError::BalanceTooLow` (lines 152 and 159), not
the distinct `AuctionClosed` of the error taxonomy. -/
theorem place_bid_timing_error_is_balance_error :
    (place_bid okInput okEnv endedState).1 =
      some (ProgError.auction AuctionError.BalanceTooLow) ∧
    (place_bid { okInput with clockTimestamp := 1300 } okEnv gapState).1 =
      some (ProgError.auction AuctionError.BalanceTooLow) ∧
    AuctionError.BalanceTooLow ≠ AuctionError.AuctionClosed := by
  decide

/-- Claim C2, counterexample: a bid rejected by the end-time rule returns an
error, yet 50 lamports have already left the bidder (1000 → 950) and sit in
the pot — the timing checks run after the fund transfer, not before. -/
theorem place_bid_rejected_bid_moved_funds :
    (place_bid okInput okEnv endedState).1.isSome = true ∧
    endedState.bidderLamports = 1000 ∧
    (place_bid okInput okEnv endedState).2.bidderLamports = 950 ∧
    (place_bid okInput okEnv endedState).2.potLamports = 50 := by
  decide

/-- Claim C8: `place_bid` never writes the bidder-metadata account: the
derived metadata address is only compared against the supplied key, and the
second `create_or_allocate_account_raw` call targets the pot account with the
pot seeds (lines 133–144), so the metadata write flag is unchanged on every
path. -/
theorem place_bid_never_writes_metadata (inp : BidInput) (env : Env) (s : ChainState) :
    (place_bid inp env s).2.metaAccountTouched = s.metaAccountTouched := by
  have hc : (commitBid inp env s).2.metaAccountTouched = s.metaAccountTouched := by
    unfold commitBid
    repeat' split
    all_goals simp [afterTransfer]
  unfold place_bid
  repeat' split
  all_goals simp [afterTransfer, hc]

/-- Claim C10: `args.resource` is never read by `place_bid`: replacing the
resource field of the arguments, all else equal, yields the identical result
and state. -/
theorem place_bid_ignores_resource (inp : BidInput) (env : Env) (s : ChainState) (r : Nat) :
    place_bid { inp with args := { amount := inp.args.amount, resource := r } } env s =
      place_bid inp env s := rfl

/-- A successful `BidState.place_bid` keeps the ledger within capacity and
preserves the capacity itself. -/
theorem BidState.place_bid_ok_bounds (s : BidState) (new : Bid) (bs : BidState)
    (h : BidState.place_bid s new = Except.ok bs) :
    bs.bids.length ≤ bs.max ∧ bs.max = s.max := by
  unfold BidState.place_bid at h
  repeat' split at h
  · simp_all
  · injection h with h'
    subst h'
    refine ⟨?_, rfl⟩
    simp only [List.length_take]
    exact min_le_left _ _
  · injection h with h'
    subst h'
    refine ⟨?_, rfl⟩
    simp only [List.length_take]
    exact min_le_left _ _

/-- Claim C4: whenever the stored auction has a configured `end_time` that is
strictly before the call's clock timestamp, `place_bid` returns an error, no
matter the gap configuration, ledger contents, balances or environment — no
bid is ever accepted after `end_time`. -/
theorem place_bid_rejects_after_end_time (inp : BidInput) (env : Env) (s : ChainState)
    (endT : Int) (he : s.auction.end_time = some endT) (ht : endT < inp.clockTimestamp) :
    (place_bid inp env s).1 ≠ none := by
  unfold place_bid
  repeat' split
  all_goals simp_all [endViolated]

/-- Claim C4, witness: with `end_time = 100` and a bid at `t = 200`, the call
errors. -/
theorem place_bid_rejects_after_end_time_witness :
    (place_bid okInput okEnv endedState).1 ≠ none :=
  place_bid_rejects_after_end_time okInput okEnv endedState 100 (by decide) (by decide)

/-- Every failing return of `place_bid` other than a serialization failure
leaves the stored auction record (and its readability) unchanged: all those
returns happen before the serialize into the auction account. -/
theorem place_bid_nonserialize_error_frame (inp : BidInput) (env : Env) (s : ChainState) :
    ∀ e st, place_bid inp env s = (some e, st) → e ≠ ProgError.serializeFailed →
      st.auction = s.auction ∧ st.auctionReadable = s.auctionReadable := by
  intro e st h hne
  have hc : ∀ e' st', commitBid inp env s = (some e', st') →
      e' ≠ ProgError.serializeFailed →
      st'.auction = s.auction ∧ st'.auctionReadable = s.auctionReadable := by
    intro e' st' h' hne'
    unfold commitBid at h'
    repeat' split at h'
    · simp only [Prod.mk.injEq] at h'
      obtain ⟨h1, h2⟩ := h'
      subst h2
      simp [afterTransfer]
    · simp only [Prod.mk.injEq] at h'
      obtain ⟨h1, h2⟩ := h'
      exact absurd (Option.some.inj h1).symm hne'
    · simp at h'
  unfold place_bid at h
  repeat' split at h
  all_goals first
    | exact hc e st h hne
    | (simp only [Prod.mk.injEq] at h
       obtain ⟨h1, h2⟩ := h
       subst h2
       simp [afterTransfer])

/-- Claim C2, amended: an account-validation failure (pot mismatch or
metadata mismatch) or a balance-check rejection happens before the transfer
and returns with the whole state untouched; every error other than a
serialization failure leaves the stored auction record (and hence the bid
ledger) unmutated — but the timing and ledger checks run after the fund
transfer, so those rejections do not restore the moved lamports. -/
theorem place_bid_error_effects (inp : BidInput) (env : Env) (s : ChainState) :
    (inp.potDerived ≠ inp.bidderPotKey →
      place_bid inp env s = (some (ProgError.auction AuctionError.InvalidBidAccount), s)) ∧
    (inp.metaDerived ≠ inp.bidderMetaKey →
      place_bid inp env s = (some (ProgError.auction AuctionError.InvalidBidAccount), s)) ∧
    (inp.potDerived = inp.bidderPotKey → inp.metaDerived = inp.bidderMetaKey →
      sub64 s.bidderLamports inp.args.amount = 0 →
      place_bid inp env s = (some (ProgError.auction AuctionError.BalanceTooLow), s)) ∧
    (∀ e st, place_bid inp env s = (some e, st) → e ≠ ProgError.serializeFailed →
      st.auction = s.auction ∧ st.auctionReadable = s.auctionReadable) := by
  refine ⟨?_, ?_, ?_, place_bid_nonserialize_error_frame inp env s⟩
  · intro h1
    simp [place_bid, h1]
  · intro h2
    by_cases h1 : inp.potDerived = inp.bidderPotKey <;> simp [place_bid, h1, h2]
  · intro h1 h2 h3
    simp [place_bid, h1, h2, h3]

/-- Claim C2, witness: a mismatched pot account, a mismatched metadata
account and a full-balance bid are each rejected with the whole state
returned untouched, and the validation error leaves the auction record
unchanged. -/
theorem place_bid_error_effects_witness :
    (place_bid badPotInput okEnv baseState =
      (some (ProgError.auction AuctionError.InvalidBidAccount), baseState)) ∧
    (place_bid badMetaInput okEnv baseState =
      (some (ProgError.auction AuctionError.InvalidBidAccount), baseState)) ∧
    (place_bid equalBalanceInput okEnv baseState =
      (some (ProgError.auction AuctionError.BalanceTooLow), baseState)) ∧
    (baseState.auction = baseState.auction ∧
      baseState.auctionReadable = baseState.auctionReadable) :=
  ⟨(place_bid_error_effects badPotInput okEnv baseState).1 (by decide),
   (place_bid_error_effects badMetaInput okEnv baseState).2.1 (by decide),
   (place_bid_error_effects equalBalanceInput okEnv baseState).2.2.1 (by decide) (by decide)
     (by decide),
   (place_bid_error_effects badPotInput okEnv baseState).2.2.2
     (ProgError.auction AuctionError.InvalidBidAccount) baseState (by decide) (by decide)⟩

/-- Claim C9: when `place_bid` fails with a post-transfer error — auction
deserialization, a timing rejection (reported as `BalanceTooLow`), or the
ledger's `BidTooSmall` — the stored auction record is byte-for-byte
untouched: serialization back into the account happens only after every
fallible step has succeeded. -/
theorem place_bid_post_transfer_error_keeps_record (inp : BidInput) (env : Env)
    (s : ChainState) (e : ProgError) (st : ChainState)
    (h : place_bid inp env s = (some e, st))
    (he : e = ProgError.deserializeFailed ∨ e = ProgError.auction AuctionError.BalanceTooLow ∨
      e = ProgError.auction AuctionError.BidTooSmall) :
    st.auction = s.auction ∧ st.auctionReadable = s.auctionReadable := by
  have hne : e ≠ ProgError.serializeFailed := by
    rcases he with h1 | h1 | h1 <;> simp [h1]
  exact place_bid_nonserialize_error_frame inp env s e st h hne

/-- Claim C9, witness: a call against an unparseable auction record fails
after the transfer — the bidder's lamports have moved — yet the stored
auction record is unchanged. -/
theorem place_bid_post_transfer_error_keeps_record_witness :
    (unreadableOutput.auction = unreadableState.auction ∧
      unreadableOutput.auctionReadable = unreadableState.auctionReadable) ∧
    unreadableOutput.bidderLamports < unreadableState.bidderLamports :=
  ⟨place_bid_post_transfer_error_keeps_record okInput okEnv unreadableState
      ProgError.deserializeFailed unreadableOutput (by decide) (by decide),
   by decide⟩

/-- Claim C3: the bid-ledger bound `len <= N` is an invariant of `place_bid`:
if the stored ledger respects its capacity before a call, it still does after
the call (whatever the outcome), and the capacity itself never changes — so
along any sequence of calls the ledger length stays at most `N`. -/
theorem place_bid_ledger_bounded (inp : BidInput) (env : Env) (s : ChainState)
    (h : s.auction.bid_state.bids.length ≤ s.auction.bid_state.max) :
    (place_bid inp env s).2.auction.bid_state.bids.length ≤
      (place_bid inp env s).2.auction.bid_state.max ∧
    (place_bid inp env s).2.auction.bid_state.max = s.auction.bid_state.max := by
  have hc :
      (commitBid inp env s).2.auction.bid_state.bids.length ≤
        (commitBid inp env s).2.auction.bid_state.max ∧
      (commitBid inp env s).2.auction.bid_state.max = s.auction.bid_state.max := by
    rcases hbs : BidState.place_bid s.auction.bid_state (Bid.mk inp.potDerived inp.args.amount)
      with e | bs
    · simp [commitBid, hbs, afterTransfer, h]
    · obtain ⟨hb1, hb2⟩ := BidState.place_bid_ok_bounds _ _ _ hbs
      by_cases hser : env.serializeFails
      · simp [commitBid, hbs, hser, hb2]
        omega
      · simp [commitBid, hbs, hser, hb2]
        omega
  obtain ⟨hc1, hc2⟩ := hc
  unfold place_bid
  repeat' split
  all_goals simp_all [afterTransfer]

/-- Claim C3, witness: the baseline call keeps the ledger within its
capacity of 3. -/
theorem place_bid_ledger_bounded_witness :
    (place_bid okInput okEnv baseState).2.auction.bid_state.bids.length ≤
      (place_bid okInput okEnv baseState).2.auction.bid_state.max ∧
    (place_bid okInput okEnv baseState).2.auction.bid_state.max =
      baseState.auction.bid_state.max :=
  place_bid_ledger_bounded okInput okEnv baseState (by decide)

/-- Claim C7: a successful `place_bid` leaves the stored auction record with
`last_bid` equal to the call's clock timestamp, and its persisted ledger is
exactly the result of inserting the new bid into the previous ledger. -/
theorem place_bid_success_postcondition (inp : BidInput) (env : Env) (s : ChainState)
    (st : ChainState) (h : place_bid inp env s = (none, st)) :
    st.auction.last_bid = some inp.clockTimestamp ∧
    BidState.place_bid s.auction.bid_state (Bid.mk inp.potDerived inp.args.amount) =
      Except.ok st.auction.bid_state := by
  have hc : ∀ st', commitBid inp env s = (none, st') →
      st'.auction.last_bid = some inp.clockTimestamp ∧
      BidState.place_bid s.auction.bid_state (Bid.mk inp.potDerived inp.args.amount) =
        Except.ok st'.auction.bid_state := by
    intro st' h'
    unfold commitBid at h'
    repeat' split at h'
    · simp at h'
    · simp at h'
    · simp only [Prod.mk.injEq] at h'
      obtain ⟨h1, h2⟩ := h'
      subst h2
      simp_all
  unfold place_bid at h
  repeat' split at h
  all_goals first
    | exact hc st h
    | simp_all

/-- Claim C7, witness: the baseline successful call stores `last_bid = 200`
and the ledger produced by the insertion. -/
theorem place_bid_success_postcondition_witness :
    okOutput.auction.last_bid = some okInput.clockTimestamp ∧
    BidState.place_bid baseState.auction.bid_state
        (Bid.mk okInput.potDerived okInput.args.amount) =
      Except.ok okOutput.auction.bid_state :=
  place_bid_success_postcondition okInput okEnv baseState okOutput (by decide)
